import Mathlib

/-!
Verification development for the ai-hedge-fund repository.

The repository source tree contains the frontend pages
(BacktestPage.tsx, ConfigPage.tsx, AnalysisPage.tsx, App.tsx) and the
project README. The backtesting engine itself (src/backtester.py in the
documented project layout) is not present in the tree, so the engine and
the statistics aggregator are modelled from the design spec, while the
frontend handlers are embedded directly from the TypeScript source.

Numbers typed as TypeScript number / spec reals are embedded as ℚ so
that the accounting identities are exact.
-/

namespace Frontend

/-- The TradeRecord interface of BacktestPage.tsx (lines 7-13): fields
date, action, price, amount, value. -/
structure TradeRecord where
  date : String
  action : String
  price : ℚ
  amount : ℚ
  value : ℚ
deriving DecidableEq

/-- The field names of the surfaced TradeRecord interface, in source
order (BacktestPage.tsx lines 7-13). -/
def tradeRecordFieldNames : List String :=
  ["date", "action", "price", "amount", "value"]

/-- The hardcoded sample results produced by runBacktest
(BacktestPage.tsx lines 32-37). -/
def sampleResults : List TradeRecord :=
  [ { date := "2024-01-01", action := "买入", price := 42150.23, amount := 0.5, value := 21075.115 },
    { date := "2024-01-15", action := "卖出", price := 43500.00, amount := 0.5, value := 21750.00 },
    { date := "2024-02-01", action := "买入", price := 41800.00, amount := 0.6, value := 25080.00 },
    { date := "2024-02-15", action := "卖出", price := 44200.00, amount := 0.6, value := 26520.00 } ]

/-- The stats state of BacktestPage.tsx (lines 20-24): totalTrades,
profitableTrades, totalReturn, all TypeScript numbers. -/
structure BacktestStats where
  totalTrades : ℚ
  profitableTrades : ℚ
  totalReturn : ℚ
deriving DecidableEq

/-- The hardcoded stats set by runBacktest (BacktestPage.tsx lines 39-43). -/
def sampleStats : BacktestStats :=
  { totalTrades := 4, profitableTrades := 2, totalReturn := 8.5 }

/-- The component state of BacktestPage: startDate, endDate, loading,
results, stats (BacktestPage.tsx lines 16-24). -/
structure BacktestPageState where
  startDate : String
  endDate : String
  loading : Bool
  results : List TradeRecord
  stats : BacktestStats
deriving DecidableEq

/-- The runBacktest handler (BacktestPage.tsx lines 26-49): loading is
set, then the try body either completes — storing sampleResults and the
hardcoded stats — or throws, in which case the catch branch only logs;
the finally branch always clears loading. The bodyThrows flag models
whether the awaited body throws. -/
def runBacktest (bodyThrows : Bool) (s : BacktestPageState) : BacktestPageState :=
  let s1 := { s with loading := true }
  if bodyThrows then
    { s1 with loading := false }
  else
    { s1 with results := sampleResults, stats := sampleStats, loading := false }

/-- The disabled condition of the run button (BacktestPage.tsx line 78):
loading, or an empty startDate or endDate (empty strings are falsy). -/
def backtestButtonDisabled (s : BacktestPageState) : Bool :=
  s.loading || s.startDate == "" || s.endDate == ""

/-- The ApiKeys interface of ConfigPage.tsx (lines 8-12). -/
structure ApiKeys where
  openai : String
  anthropic : String
  coinmarketcap : String
deriving DecidableEq

/-- The three key names of the ApiKeys interface. -/
inductive ApiKeyName where
  | openai
  | anthropic
  | coinmarketcap
deriving DecidableEq

/-- Projection of one named key out of an ApiKeys value. -/
def getKey : ApiKeyName → ApiKeys → String
  | .openai, ks => ks.openai
  | .anthropic, ks => ks.anthropic
  | .coinmarketcap, ks => ks.coinmarketcap

/-- The handleInputChange handler (ConfigPage.tsx lines 23-28): spreads
the previous keys and overwrites the one named key with the input value. -/
def handleInputChange (key : ApiKeyName) (v : String) (prev : ApiKeys) : ApiKeys :=
  match key with
  | .openai => { prev with openai := v }
  | .anthropic => { prev with anthropic := v }
  | .coinmarketcap => { prev with coinmarketcap := v }

/-- A toast emitted through useToast: title, description, and whether
the destructive variant was used. -/
structure Toast where
  title : String
  description : String
  destructive : Bool
deriving DecidableEq

/-- The component state of ConfigPage: loading, apiKeys, plus the
sequence of toasts emitted so far (ConfigPage.tsx lines 15-21). -/
structure ConfigPageState where
  loading : Bool
  apiKeys : ApiKeys
  toasts : List Toast
deriving DecidableEq

/-- The testConnection handler (ConfigPage.tsx lines 30-48): loading is
set, the try body either completes — emitting the success toast — or
throws — the catch emits the destructive failure toast; the finally
branch always clears loading. The apiKeys state is never written. -/
def testConnection (bodyThrows : Bool) (s : ConfigPageState) : ConfigPageState :=
  let s1 := { s with loading := true }
  if bodyThrows then
    { s1 with
      toasts := s1.toasts ++ [{ title := "连接测试失败", description := "请检查API密钥是否正确", destructive := true }],
      loading := false }
  else
    { s1 with
      toasts := s1.toasts ++ [{ title := "连接测试成功", description := "所有API密钥验证通过", destructive := false }],
      loading := false }

/-- The saveConfig handler (ConfigPage.tsx lines 50-68): same shape as
testConnection with the save toasts; apiKeys is never written. -/
def saveConfig (bodyThrows : Bool) (s : ConfigPageState) : ConfigPageState :=
  let s1 := { s with loading := true }
  if bodyThrows then
    { s1 with
      toasts := s1.toasts ++ [{ title := "配置保存失败", description := "请稍后重试", destructive := true }],
      loading := false }
  else
    { s1 with
      toasts := s1.toasts ++ [{ title := "配置保存成功", description := "API密钥已更新", destructive := false }],
      loading := false }

/-- The MarketData interface of AnalysisPage.tsx (lines 9-13). -/
structure MarketData where
  price : ℚ
  change24h : ℚ
  volume : ℚ
deriving DecidableEq

/-- The AgentAnalysis interface of AnalysisPage.tsx (lines 15-19). -/
structure AgentAnalysis where
  title : String
  content : String
  loading : Bool
deriving DecidableEq

/-- The component state of AnalysisPage relevant to refreshAnalysis:
loading, marketData, agents, toasts. -/
structure AnalysisPageState where
  loading : Bool
  marketData : MarketData
  agents : List AgentAnalysis
  toasts : List Toast
deriving DecidableEq

/-- The refreshAnalysis handler (AnalysisPage.tsx lines 63-89): loading
is set; the market-data fetch either fails (throw, caught: destructive
toast) or succeeds and is stored; then the analysis fetch either fails
(throw after marketData was already stored, caught: destructive toast)
or succeeds and the agents are stored; the finally branch always clears
loading. Each fetch outcome is modelled as an Option. -/
def refreshAnalysis (fetchMarket : Option MarketData) (fetchAgents : Option (List AgentAnalysis))
    (s : AnalysisPageState) : AnalysisPageState :=
  let s1 := { s with loading := true }
  match fetchMarket with
  | none =>
    { s1 with
      toasts := s1.toasts ++ [{ title := "错误", description := "更新市场数据失败，请稍后重试", destructive := true }],
      loading := false }
  | some md =>
    let s2 := { s1 with marketData := md }
    match fetchAgents with
    | none =>
      { s2 with
        toasts := s2.toasts ++ [{ title := "错误", description := "更新市场数据失败，请稍后重试", destructive := true }],
        loading := false }
    | some ags =>
      { s2 with agents := ags, loading := false }

/-- Count of non-hold records in a frontend record list, the §4.4
total-trades formula applied to the surfaced records (hold rows would
carry the action 持有; the sample rows are 买入 = buy, 卖出 = sell). -/
def totalTradesOfRecords : List TradeRecord → Nat
  | [] => 0
  | r :: rs => (if r.action = "持有" then 0 else 1) + totalTradesOfRecords rs

/-- Replay of a frontend record list tracking held quantity and average
cost basis, counting the sell records whose proceeds exceed the cost
basis of the quantity sold (the §4.4 profitable-trades formula applied
to the surfaced records). -/
def profitableTradesAux : ℚ → ℚ → List TradeRecord → Nat
  | _, _, [] => 0
  | qty, basis, r :: rs =>
    if r.action = "买入" then
      let newQty := qty + r.amount
      let newBasis := if newQty = 0 then 0 else (qty * basis + r.value) / newQty
      profitableTradesAux newQty newBasis rs
    else if r.action = "卖出" then
      let cnt := profitableTradesAux (qty - r.amount) basis rs
      if r.amount * basis < r.value then cnt + 1 else cnt
    else
      profitableTradesAux qty basis rs

/-- The §4.4 profitable-trades count of a frontend record list. -/
def profitableTradesOfRecords (rs : List TradeRecord) : Nat :=
  profitableTradesAux 0 0 rs

end Frontend

namespace Engine

/-- Modelled from the spec: Bar as in §3 — src/backtester.py is absent
from the source tree, so the engine data model follows the spec text.
The open field is renamed open_ because open is a Lean keyword. -/
structure Bar where
  date : Nat
  open_ : ℚ
  high : ℚ
  low : ℚ
  close : ℚ
  volume : ℚ
deriving DecidableEq

/-- Modelled from the spec: the action of a Decision (§3). -/
inductive TradeAction where
  | buy
  | sell
  | hold
deriving DecidableEq

/-- Modelled from the spec: Decision = action with a quantity (§3). -/
structure Decision where
  action : TradeAction
  quantity : ℚ
deriving DecidableEq

/-- Modelled from the spec: PortfolioState = cash plus the Position
(quantity held, average cost basis) (§3). -/
structure PortfolioState where
  cash : ℚ
  quantity : ℚ
  costBasis : ℚ
deriving DecidableEq

/-- Modelled from the spec: TradeRecord with date, action, price,
quantity, trade value, resulting cash, resulting quantity and resulting
total equity (§3). -/
structure TradeRecord where
  date : Nat
  action : TradeAction
  price : ℚ
  quantity : ℚ
  value : ℚ
  cashAfter : ℚ
  quantityAfter : ℚ
  totalEquity : ℚ
deriving DecidableEq

/-- Modelled from the spec: the execution rules of §4.3 — a buy converts
quantity × close(d) of cash into Position (clamped so that cash never
goes negative, with weighted-average cost basis), a sell reduces the
Position by min(quantity, held) and credits cash at close(d), a hold
changes nothing; total equity = cash + quantity × close(d); one
TradeRecord is produced. Execution price is always the closing price. -/
def applyDecision (st : PortfolioState) (d : Decision) (bar : Bar) : PortfolioState × TradeRecord :=
  let p := bar.close
  match d.action with
  | .buy =>
    let q := if p = 0 then d.quantity else min d.quantity (st.cash / p)
    let cost := q * p
    let newQty := st.quantity + q
    let newBasis := if newQty = 0 then 0 else (st.quantity * st.costBasis + cost) / newQty
    let st2 : PortfolioState := { cash := st.cash - cost, quantity := newQty, costBasis := newBasis }
    (st2, { date := bar.date, action := .buy, price := p, quantity := q, value := cost,
            cashAfter := st2.cash, quantityAfter := st2.quantity,
            totalEquity := st2.cash + st2.quantity * p })
  | .sell =>
    let q := min d.quantity st.quantity
    let proceeds := q * p
    let st2 : PortfolioState := { cash := st.cash + proceeds, quantity := st.quantity - q, costBasis := st.costBasis }
    (st2, { date := bar.date, action := .sell, price := p, quantity := q, value := proceeds,
            cashAfter := st2.cash, quantityAfter := st2.quantity,
            totalEquity := st2.cash + st2.quantity * p })
  | .hold =>
    (st, { date := bar.date, action := .hold, price := p, quantity := 0, value := 0,
           cashAfter := st.cash, quantityAfter := st.quantity,
           totalEquity := st.cash + st.quantity * p })

/-- Modelled from the spec: the Agent Pipeline as a decision function —
given the context (bars up to the current date) and the portfolio
snapshot, it produces the Decision for the date (§4.2). -/
def Pipeline : Type :=
  List Bar → PortfolioState → Decision

/-- Modelled from the spec: the per-date loop of §4.3 — for each date in
the requested range, in increasing order, build the context of bars at
or before the date, invoke the pipeline, apply the Decision, and append
one TradeRecord. -/
def runSteps (pipeline : Pipeline) : PortfolioState → List Bar → List Bar → List TradeRecord
  | _, _, [] => []
  | st, seen, bar :: more =>
    let ctx := seen ++ [bar]
    let d := pipeline ctx st
    let out := applyDecision st d bar
    out.2 :: runSteps pipeline out.1 ctx more

/-- Modelled from the spec: total trades = count of non-hold records (§4.4). -/
def totalTradesOf : List TradeRecord → Nat
  | [] => 0
  | r :: rs => (if r.action = TradeAction.hold then 0 else 1) + totalTradesOf rs

/-- Modelled from the spec: replay of the record sequence tracking held
quantity and average cost basis; a sell is profitable when its realized
proceeds exceed the cost basis of the quantity sold (§4.4). -/
def profitableTradesAux : ℚ → ℚ → List TradeRecord → Nat
  | _, _, [] => 0
  | qty, basis, r :: rs =>
    match r.action with
    | .buy =>
      let newQty := qty + r.quantity
      let newBasis := if newQty = 0 then 0 else (qty * basis + r.value) / newQty
      profitableTradesAux newQty newBasis rs
    | .sell =>
      let cnt := profitableTradesAux (qty - r.quantity) basis rs
      if r.quantity * basis < r.value then cnt + 1 else cnt
    | .hold => profitableTradesAux qty basis rs

/-- Modelled from the spec: profitable trades = count of profitable sell
records of the sequence (§4.4). -/
def profitableTradesOf (recs : List TradeRecord) : Nat :=
  profitableTradesAux 0 0 recs

/-- Modelled from the spec: the final equity of a run is the resulting
total equity of the last record, or the initial cash when no record was
produced. -/
def finalEquityOf (initialCash : ℚ) (recs : List TradeRecord) : ℚ :=
  (recs.getLast?.map TradeRecord.totalEquity).getD initialCash

/-- Modelled from the spec: total return = (final equity / initial cash)
− 1, expressed as a percentage (§4.4). -/
def totalReturnOf (initialCash : ℚ) (recs : List TradeRecord) : ℚ :=
  (finalEquityOf initialCash recs / initialCash - 1) * 100

/-- Modelled from the spec: the summary statistics of a run (§4.4,
restricted to the three metrics the spec derives from the records that
the claims mention). -/
structure Stats where
  totalTrades : Nat
  profitableTrades : Nat
  totalReturn : ℚ
deriving DecidableEq

/-- Modelled from the spec: BacktestResult = ordered TradeRecord
sequence plus summary statistics (§3). -/
structure BacktestResult where
  records : List TradeRecord
  stats : Stats
deriving DecidableEq

/-- Modelled from the spec: the run-level failure taxonomy entry for an
invalid or unavailable date range or symbol (§7). -/
inductive Failure where
  | preconditionFailure
deriving DecidableEq

/-- Modelled from the spec: the backtest entry point (§6, §4.3) — the
adapter result is an Option carrying the fetched Series; when the
adapter cannot supply any bar for the requested range the run fails with
PreconditionFailure before any TradeRecord is produced; otherwise the
engine starts from the configured cash and zero position, processes
every date in order and produces a BacktestResult with the aggregated
statistics. -/
def run_backtest (series : Option (List Bar)) (startingCash : ℚ) (pipeline : Pipeline) :
    Except Failure BacktestResult :=
  match series with
  | none => .error .preconditionFailure
  | some [] => .error .preconditionFailure
  | some bars =>
    let recs := runSteps pipeline { cash := startingCash, quantity := 0, costBasis := 0 } [] bars
    .ok { records := recs,
          stats := { totalTrades := totalTradesOf recs,
                     profitableTrades := profitableTradesOf recs,
                     totalReturn := totalReturnOf startingCash recs } }

/-- The TradeRecords observable from an entry-point outcome: none on a
failed run. -/
def producedRecords : Except Failure BacktestResult → List TradeRecord
  | .error _ => []
  | .ok r => r.records

/-- The net position implied by a record sequence: buy quantities add,
sell quantities subtract, holds contribute nothing. -/
def netPositionAux (acc : ℚ) : List TradeRecord → ℚ
  | [] => acc
  | r :: rs =>
    match r.action with
    | .buy => netPositionAux (acc + r.quantity) rs
    | .sell => netPositionAux (acc - r.quantity) rs
    | .hold => netPositionAux acc rs

/-- The net position implied by a record sequence, from zero. -/
def netPosition (recs : List TradeRecord) : ℚ :=
  netPositionAux 0 recs

end Engine

/-- The TradeRecord field names required by the spec data model (§3). -/
def specTradeRecordFieldNames : List String :=
  ["date", "action", "price", "quantity", "trade value",
   "resulting cash", "resulting quantity", "resulting total equity"]

/-- A concrete one-day bar used to instantiate the engine theorems. -/
def wBar : Engine.Bar :=
  { date := 1, open_ := 10, high := 10, low := 10, close := 10, volume := 1 }

/-- A concrete second-day bar used to instantiate the engine theorems. -/
def wBar2 : Engine.Bar :=
  { date := 2, open_ := 20, high := 20, low := 20, close := 20, volume := 1 }

/-- A concrete deterministic pipeline that always buys one unit. -/
def wPipe : Engine.Pipeline :=
  fun _ _ => { action := .buy, quantity := 1 }

/-- The record the engine produces on wBar from 100 cash under wPipe. -/
def wRec : Engine.TradeRecord :=
  { date := 1, action := .buy, price := 10, quantity := 1, value := 10,
    cashAfter := 90, quantityAfter := 1, totalEquity := 100 }

/-- The record the engine produces on wBar2 after wRec under wPipe. -/
def wRec2 : Engine.TradeRecord :=
  { date := 2, action := .buy, price := 20, quantity := 1, value := 20,
    cashAfter := 70, quantityAfter := 2, totalEquity := 110 }

/-- The result of the one-day concrete run. -/
def wRes : Engine.BacktestResult :=
  { records := [wRec],
    stats := { totalTrades := 1, profitableTrades := 0, totalReturn := 0 } }

/-- The result of the two-day concrete run. -/
def wRes2 : Engine.BacktestResult :=
  { records := [wRec, wRec2],
    stats := { totalTrades := 2, profitableTrades := 0, totalReturn := 10 } }

/-- A concrete BacktestPage state with non-empty dates. -/
def wPage1 : Frontend.BacktestPageState :=
  { startDate := "2024-01-01", endDate := "2024-03-01", loading := false,
    results := [], stats := { totalTrades := 0, profitableTrades := 0, totalReturn := 0 } }

/-- A second concrete BacktestPage state with different non-empty dates. -/
def wPage2 : Frontend.BacktestPageState :=
  { startDate := "2023-05-05", endDate := "2023-06-06", loading := false,
    results := [], stats := { totalTrades := 0, profitableTrades := 0, totalReturn := 0 } }

/-- A concrete ConfigPage state. -/
def wConfig : Frontend.ConfigPageState :=
  { loading := false,
    apiKeys := { openai := "sk-1", anthropic := "sk-ant-2", coinmarketcap := "cmc-3" },
    toasts := [] }

/-- A concrete ApiKeys value. -/
def wKeys : Frontend.ApiKeys :=
  { openai := "a", anthropic := "b", coinmarketcap := "c" }

/-- Each produced record satisfies the accounting identity by the
execution rules: its resulting equity is resulting cash plus resulting
quantity times the execution price. -/
lemma applyDecision_accounting (st : Engine.PortfolioState) (d : Engine.Decision) (bar : Engine.Bar) :
    (Engine.applyDecision st d bar).2.cashAfter +
      (Engine.applyDecision st d bar).2.quantityAfter * (Engine.applyDecision st d bar).2.price =
      (Engine.applyDecision st d bar).2.totalEquity := by
  rcases d with ⟨a, q⟩
  cases a <;> simp [Engine.applyDecision]

/-- The resulting cash and quantity of a produced record are the cash
and quantity of the resulting portfolio state. -/
lemma applyDecision_after_eq (st : Engine.PortfolioState) (d : Engine.Decision) (bar : Engine.Bar) :
    (Engine.applyDecision st d bar).2.cashAfter = (Engine.applyDecision st d bar).1.cash ∧
      (Engine.applyDecision st d bar).2.quantityAfter = (Engine.applyDecision st d bar).1.quantity := by
  rcases d with ⟨a, q⟩
  cases a <;> simp [Engine.applyDecision]

/-- A produced record carries the date of its bar. -/
lemma applyDecision_date (st : Engine.PortfolioState) (d : Engine.Decision) (bar : Engine.Bar) :
    (Engine.applyDecision st d bar).2.date = bar.date := by
  rcases d with ⟨a, q⟩
  cases a <;> simp [Engine.applyDecision]

/-- Every record of a run satisfies the accounting identity. -/
lemma runSteps_accounting (pipeline : Engine.Pipeline) :
    ∀ (rest : List Engine.Bar) (st : Engine.PortfolioState) (seen : List Engine.Bar),
      ∀ tr ∈ Engine.runSteps pipeline st seen rest,
        tr.cashAfter + tr.quantityAfter * tr.price = tr.totalEquity := by
  intro rest
  induction rest with
  | nil => intro st seen tr h; simp [Engine.runSteps] at h
  | cons bar more ih =>
    intro st seen tr h
    simp only [Engine.runSteps, List.mem_cons] at h
    rcases h with h | h
    · subst h
      exact applyDecision_accounting st (pipeline (seen ++ [bar]) st) bar
    · exact ih _ _ _ h

/-- Applying a Decision with a non-negative quantity at a non-negative
closing price preserves non-negative cash and non-negative held
quantity: the buy is clamped to the affordable quantity and the sell is
clamped to the held quantity. -/
lemma applyDecision_nonneg (st : Engine.PortfolioState) (d : Engine.Decision) (bar : Engine.Bar)
    (hc : 0 ≤ st.cash) (hq : 0 ≤ st.quantity) (hp : 0 ≤ bar.close) (hd : 0 ≤ d.quantity) :
    0 ≤ (Engine.applyDecision st d bar).1.cash ∧ 0 ≤ (Engine.applyDecision st d bar).1.quantity := by
  rcases d with ⟨a, q⟩
  cases a with
  | buy =>
    by_cases hp0 : bar.close = 0
    · simp [Engine.applyDecision, hp0]
      exact ⟨hc, add_nonneg hq hd⟩
    · have hppos : 0 < bar.close := lt_of_le_of_ne hp (Ne.symm hp0)
      have hqeff : 0 ≤ min q (st.cash / bar.close) :=
        le_min hd (div_nonneg hc hp)
      have hcost : min q (st.cash / bar.close) * bar.close ≤ st.cash := by
        have h1 : min q (st.cash / bar.close) ≤ st.cash / bar.close := min_le_right _ _
        calc min q (st.cash / bar.close) * bar.close
            ≤ (st.cash / bar.close) * bar.close := by
              exact mul_le_mul_of_nonneg_right h1 hp
          _ = st.cash := div_mul_cancel₀ st.cash hp0
      simp [Engine.applyDecision, hp0]
      exact ⟨by linarith, add_nonneg hq hqeff⟩
  | sell =>
    have hqeff : 0 ≤ min q st.quantity := le_min hd hq
    have hmin : min q st.quantity ≤ st.quantity := min_le_right _ _
    have hmul : 0 ≤ min q st.quantity * bar.close := mul_nonneg hqeff hp
    constructor
    · simp only [Engine.applyDecision]
      linarith
    · simp only [Engine.applyDecision]
      linarith
  | hold =>
    exact ⟨hc, hq⟩

/-- All records of a run have non-negative resulting cash and resulting
quantity, provided the pipeline emits non-negative quantities, the bars
have non-negative closing prices, and the starting state is admissible. -/
lemma runSteps_nonneg (pipeline : Engine.Pipeline)
    (hpipe : ∀ ctx st, 0 ≤ (pipeline ctx st).quantity) :
    ∀ (rest : List Engine.Bar) (st : Engine.PortfolioState) (seen : List Engine.Bar),
      0 ≤ st.cash → 0 ≤ st.quantity → (∀ b ∈ rest, 0 ≤ b.close) →
      ∀ tr ∈ Engine.runSteps pipeline st seen rest, 0 ≤ tr.cashAfter ∧ 0 ≤ tr.quantityAfter := by
  intro rest
  induction rest with
  | nil => intro st seen _ _ _ tr h; simp [Engine.runSteps] at h
  | cons bar more ih =>
    intro st seen hc hq hcl tr h
    have hp : 0 ≤ bar.close := hcl bar (by simp)
    have hstep := applyDecision_nonneg st (pipeline (seen ++ [bar]) st) bar hc hq hp (hpipe _ _)
    simp only [Engine.runSteps, List.mem_cons] at h
    rcases h with h | h
    · subst h
      have hsame := applyDecision_after_eq st (pipeline (seen ++ [bar]) st) bar
      rw [hsame.1, hsame.2]
      exact hstep
    · exact ih _ _ hstep.1 hstep.2 (fun b hb => hcl b (by simp [hb])) tr h

/-- Folding one produced record into a net-position accumulator starting
at the quantity held before the step yields the quantity held after the
step. -/
lemma netPositionAux_applyDecision (st : Engine.PortfolioState) (d : Engine.Decision)
    (bar : Engine.Bar) (l : List Engine.TradeRecord) :
    Engine.netPositionAux st.quantity ((Engine.applyDecision st d bar).2 :: l) =
      Engine.netPositionAux (Engine.applyDecision st d bar).1.quantity l := by
  rcases d with ⟨a, q⟩
  cases a <;> simp [Engine.applyDecision, Engine.netPositionAux]

/-- Every cut of the record sequence of a run has a non-negative net
position when the accumulator starts at the quantity held before the
remaining steps. -/
lemma runSteps_netPosition_nonneg (pipeline : Engine.Pipeline)
    (hpipe : ∀ ctx st, 0 ≤ (pipeline ctx st).quantity) :
    ∀ (rest : List Engine.Bar) (st : Engine.PortfolioState) (seen : List Engine.Bar),
      0 ≤ st.cash → 0 ≤ st.quantity → (∀ b ∈ rest, 0 ≤ b.close) →
      ∀ n : Nat, 0 ≤ Engine.netPositionAux st.quantity ((Engine.runSteps pipeline st seen rest).take n) := by
  intro rest
  induction rest with
  | nil => intro st seen _ hq _ n; simpa [Engine.runSteps, Engine.netPositionAux] using hq
  | cons bar more ih =>
    intro st seen hc hq hcl n
    have hp : 0 ≤ bar.close := hcl bar (by simp)
    have hstep := applyDecision_nonneg st (pipeline (seen ++ [bar]) st) bar hc hq hp (hpipe _ _)
    cases n with
    | zero => simpa [Engine.netPositionAux] using hq
    | succ m =>
      simp only [Engine.runSteps, List.take_succ_cons]
      rw [netPositionAux_applyDecision]
      exact ih _ _ hstep.1 hstep.2 (fun b hb => hcl b (by simp [hb])) m

/-- The record sequence of a run carries exactly the dates of the bars,
in order. -/
lemma runSteps_map_date (pipeline : Engine.Pipeline) :
    ∀ (rest : List Engine.Bar) (st : Engine.PortfolioState) (seen : List Engine.Bar),
      (Engine.runSteps pipeline st seen rest).map Engine.TradeRecord.date =
        rest.map Engine.Bar.date := by
  intro rest
  induction rest with
  | nil => intro st seen; simp [Engine.runSteps]
  | cons bar more ih =>
    intro st seen
    simp only [Engine.runSteps, List.map_cons]
    rw [applyDecision_date, ih]

/-- A successful run determines its records and statistics: the records
are the per-date loop over the fetched bars from the starting state, and
the statistics are aggregated from the records. -/
lemma run_backtest_ok_records (series : Option (List Engine.Bar)) (cash0 : ℚ)
    (pipeline : Engine.Pipeline) (res : Engine.BacktestResult)
    (h : Engine.run_backtest series cash0 pipeline = .ok res) :
    ∃ bars, series = some bars ∧
      res.records = Engine.runSteps pipeline { cash := cash0, quantity := 0, costBasis := 0 } [] bars ∧
      res.stats = { totalTrades := Engine.totalTradesOf res.records,
                    profitableTrades := Engine.profitableTradesOf res.records,
                    totalReturn := Engine.totalReturnOf cash0 res.records } := by
  rcases series with _ | bars
  · simp [Engine.run_backtest] at h
  rcases bars with _ | ⟨b, bs⟩
  · simp [Engine.run_backtest] at h
  · simp only [Engine.run_backtest, Except.ok.injEq] at h
    subst h
    exact ⟨b :: bs, rfl, rfl, rfl⟩

/-- The one-day concrete run evaluates to wRes. -/
lemma wRun_eq : Engine.run_backtest (some [wBar]) 100 wPipe = Except.ok wRes := by
  norm_num [Engine.run_backtest, Engine.runSteps, Engine.applyDecision, Engine.totalTradesOf,
    Engine.profitableTradesOf, Engine.profitableTradesAux, Engine.totalReturnOf,
    Engine.finalEquityOf, wBar, wPipe, wRec, wRes] <;> decide

/-- The two-day concrete run evaluates to wRes2. -/
lemma wRun2_eq : Engine.run_backtest (some [wBar, wBar2]) 100 wPipe = Except.ok wRes2 := by
  norm_num [Engine.run_backtest, Engine.runSteps, Engine.applyDecision, Engine.totalTradesOf,
    Engine.profitableTradesOf, Engine.profitableTradesAux, Engine.totalReturnOf,
    Engine.finalEquityOf, wBar, wBar2, wPipe, wRec, wRec2, wRes2] <;> decide

/-- The hardcoded frontend stats agree with the record-derived counts on
the sample records: four non-hold rows. -/
lemma sample_total_trades : Frontend.totalTradesOfRecords Frontend.sampleResults = 4 := by
  norm_num [Frontend.totalTradesOfRecords, Frontend.sampleResults] <;> decide

/-- The hardcoded frontend stats agree with the record-derived counts on
the sample records: both sells realize more than the cost basis sold. -/
lemma sample_profitable_trades : Frontend.profitableTradesOfRecords Frontend.sampleResults = 2 := by
  norm_num [Frontend.profitableTradesOfRecords, Frontend.profitableTradesAux,
    Frontend.sampleResults] <;> decide

/-- C1: for every TradeRecord produced by a backtest run, resulting cash
plus resulting quantity times the closing price of the record date (the
execution price recorded on the row) equals the recorded total equity,
exactly. -/
theorem backtest_record_accounting (series : Option (List Engine.Bar)) (cash0 : ℚ)
    (pipeline : Engine.Pipeline) (res : Engine.BacktestResult)
    (hrun : Engine.run_backtest series cash0 pipeline = .ok res) :
    ∀ tr ∈ res.records, tr.cashAfter + tr.quantityAfter * tr.price = tr.totalEquity := by
  obtain ⟨bars, -, hrecs, -⟩ := run_backtest_ok_records series cash0 pipeline res hrun
  intro tr htr
  rw [hrecs] at htr
  exact runSteps_accounting pipeline bars _ [] tr htr

/-- Witness for C1 at the concrete one-day run. -/
theorem backtest_record_accounting_witness :
    Engine.run_backtest (some [wBar]) 100 wPipe = Except.ok wRes ∧
    wRec ∈ wRes.records ∧
    wRec.cashAfter + wRec.quantityAfter * wRec.price = wRec.totalEquity :=
  ⟨wRun_eq, by simp [wRes],
   backtest_record_accounting (some [wBar]) 100 wPipe wRes wRun_eq wRec (by simp [wRes])⟩

/-- C2 counterexample: the spec-mandated TradeRecord contract fields are
not all carried by the TradeRecord interface the code surfaces to the
presentation layer — resulting cash, resulting quantity and resulting
total equity are missing. -/
theorem trade_record_contract_counterexample :
    ¬ ∀ f ∈ specTradeRecordFieldNames, f ∈ Frontend.tradeRecordFieldNames := by
  decide

/-- C2 amended: the TradeRecord contract surfaced to the presentation
layer carries exactly the fields date, action, price, amount and value;
the resulting cash, resulting quantity and resulting total equity of the
spec data model are not part of the surfaced contract. -/
theorem trade_record_contract_amended :
    Frontend.tradeRecordFieldNames = ["date", "action", "price", "amount", "value"] ∧
    "resulting cash" ∉ Frontend.tradeRecordFieldNames ∧
    "resulting quantity" ∉ Frontend.tradeRecordFieldNames ∧
    "resulting total equity" ∉ Frontend.tradeRecordFieldNames := by
  decide

/-- C3: for every successful run, total trades is the count of non-hold
records, profitable trades is the count of sell records whose realized
proceeds exceed the cost basis of the quantity sold, and total return is
(final equity / initial cash − 1) as a percentage; moreover the
hardcoded frontend stats agree with the two record-derived counts on the
sample records. -/
theorem backtest_stats_formulas (series : Option (List Engine.Bar)) (cash0 : ℚ)
    (pipeline : Engine.Pipeline) (res : Engine.BacktestResult)
    (hrun : Engine.run_backtest series cash0 pipeline = .ok res) :
    res.stats.totalTrades = Engine.totalTradesOf res.records ∧
    res.stats.profitableTrades = Engine.profitableTradesOf res.records ∧
    res.stats.totalReturn = (Engine.finalEquityOf cash0 res.records / cash0 - 1) * 100 ∧
    Frontend.sampleStats.totalTrades = (Frontend.totalTradesOfRecords Frontend.sampleResults : ℚ) ∧
    Frontend.sampleStats.profitableTrades = (Frontend.profitableTradesOfRecords Frontend.sampleResults : ℚ) := by
  obtain ⟨bars, -, -, hstats⟩ := run_backtest_ok_records series cash0 pipeline res hrun
  refine ⟨by rw [hstats], by rw [hstats], by rw [hstats]; simp [Engine.totalReturnOf], ?_, ?_⟩
  · rw [sample_total_trades]
    norm_num [Frontend.sampleStats]
  · rw [sample_profitable_trades]
    norm_num [Frontend.sampleStats]

/-- Witness for C3 at the concrete one-day run. -/
theorem backtest_stats_formulas_witness :
    wRes.stats.totalTrades = Engine.totalTradesOf wRes.records ∧
    wRes.stats.profitableTrades = Engine.profitableTradesOf wRes.records ∧
    wRes.stats.totalReturn = (Engine.finalEquityOf 100 wRes.records / 100 - 1) * 100 ∧
    Frontend.sampleStats.totalTrades = (Frontend.totalTradesOfRecords Frontend.sampleResults : ℚ) ∧
    Frontend.sampleStats.profitableTrades = (Frontend.profitableTradesOfRecords Frontend.sampleResults : ℚ) :=
  backtest_stats_formulas (some [wBar]) 100 wPipe wRes wRun_eq

/-- C4: when market data for the requested range is unavailable the run
fails with PreconditionFailure and no TradeRecord is produced; otherwise
the entry point returns a BacktestResult. -/
theorem backtest_precondition (series : Option (List Engine.Bar)) (cash0 : ℚ)
    (pipeline : Engine.Pipeline) :
    ((series = none ∨ series = some []) →
      Engine.run_backtest series cash0 pipeline = .error .preconditionFailure ∧
      Engine.producedRecords (Engine.run_backtest series cash0 pipeline) = []) ∧
    (∀ bars, series = some bars → bars ≠ [] →
      ∃ res, Engine.run_backtest series cash0 pipeline = .ok res) := by
  constructor
  · rintro (rfl | rfl) <;> simp [Engine.run_backtest, Engine.producedRecords]
  · rintro bars rfl hne
    rcases bars with _ | ⟨b, bs⟩
    · exact absurd rfl hne
    · exact ⟨_, rfl⟩

/-- Witness for C4: the unavailable-data case and a successful case. -/
theorem backtest_precondition_witness :
    Engine.run_backtest none 100 wPipe = Except.error Engine.Failure.preconditionFailure ∧
    Engine.producedRecords (Engine.run_backtest none 100 wPipe) = [] ∧
    ∃ res, Engine.run_backtest (some [wBar]) 100 wPipe = Except.ok res :=
  ⟨((backtest_precondition none 100 wPipe).1 (Or.inl rfl)).1,
   ((backtest_precondition none 100 wPipe).1 (Or.inl rfl)).2,
   (backtest_precondition (some [wBar]) 100 wPipe).2 [wBar] rfl (by simp)⟩

/-- C5: running the frontend backtest twice with identical inputs yields
identical results and stats — rerunning from the resulting state
reproduces them, and any two non-throwing invocations produce the same
results and stats regardless of prior state. -/
theorem frontend_backtest_idempotent (s t : Frontend.BacktestPageState) :
    (Frontend.runBacktest false (Frontend.runBacktest false s)).results =
      (Frontend.runBacktest false s).results ∧
    (Frontend.runBacktest false (Frontend.runBacktest false s)).stats =
      (Frontend.runBacktest false s).stats ∧
    (Frontend.runBacktest false s).results = (Frontend.runBacktest false t).results ∧
    (Frontend.runBacktest false s).stats = (Frontend.runBacktest false t).stats := by
  simp [Frontend.runBacktest]

/-- C6: with a pipeline emitting non-negative quantities, non-negative
closing prices and non-negative starting cash, sells are clamped to the
held quantity, so every record of a run has non-negative resulting cash
and quantity, and the net position implied by every cut of the record
sequence is never negative. -/
theorem backtest_sell_clamped_invariants (series : Option (List Engine.Bar)) (cash0 : ℚ)
    (pipeline : Engine.Pipeline) (res : Engine.BacktestResult)
    (hpipe : ∀ ctx st, 0 ≤ (pipeline ctx st).quantity)
    (hclose : ∀ bars, series = some bars → ∀ b ∈ bars, 0 ≤ b.close)
    (hcash : 0 ≤ cash0)
    (hrun : Engine.run_backtest series cash0 pipeline = .ok res) :
    (∀ tr ∈ res.records, 0 ≤ tr.cashAfter ∧ 0 ≤ tr.quantityAfter) ∧
    ∀ n : Nat, 0 ≤ Engine.netPosition (res.records.take n) := by
  obtain ⟨bars, hser, hrecs, -⟩ := run_backtest_ok_records series cash0 pipeline res hrun
  have hcl := hclose bars hser
  constructor
  · intro tr htr
    rw [hrecs] at htr
    exact runSteps_nonneg pipeline hpipe bars _ [] hcash (le_refl 0) hcl tr htr
  · intro n
    rw [hrecs]
    have h := runSteps_netPosition_nonneg pipeline hpipe bars
      { cash := cash0, quantity := 0, costBasis := 0 } [] hcash (le_refl 0) hcl n
    simpa [Engine.netPosition] using h

/-- Witness for C6 at the concrete one-day run. -/
theorem backtest_sell_clamped_invariants_witness :
    (∀ tr ∈ wRes.records, 0 ≤ tr.cashAfter ∧ 0 ≤ tr.quantityAfter) ∧
    ∀ n : Nat, 0 ≤ Engine.netPosition (wRes.records.take n) :=
  backtest_sell_clamped_invariants (some [wBar]) 100 wPipe wRes
    (fun ctx st => by norm_num [wPipe])
    (by rintro bars hb b hbmem
        injection hb with hb2
        subst hb2
        simp only [List.mem_singleton] at hbmem
        subst hbmem
        norm_num [wBar])
    (by norm_num) wRun_eq

/-- C7: with bars in strictly increasing date order, the record sequence
of every successful run is strictly increasing in date with no duplicate
dates, and the frontend sample record sequence is as well. -/
theorem backtest_dates_strictly_increasing (series : Option (List Engine.Bar)) (cash0 : ℚ)
    (pipeline : Engine.Pipeline) (res : Engine.BacktestResult) (bars : List Engine.Bar)
    (hser : series = some bars)
    (hsort : bars.Pairwise (fun a b => a.date < b.date))
    (hrun : Engine.run_backtest series cash0 pipeline = .ok res) :
    res.records.Pairwise (fun a b => a.date < b.date) ∧
    Frontend.sampleResults.Pairwise (fun a b => a.date < b.date) := by
  constructor
  · obtain ⟨bars2, hser2, hrecs, -⟩ := run_backtest_ok_records series cash0 pipeline res hrun
    rw [hser] at hser2
    injection hser2 with hb
    subst hb
    have hmap := runSteps_map_date pipeline bars { cash := cash0, quantity := 0, costBasis := 0 } []
    have h1 : (res.records.map Engine.TradeRecord.date).Pairwise (· < ·) := by
      rw [hrecs, hmap]
      exact List.pairwise_map.mpr hsort
    exact List.pairwise_map.mp h1
  · norm_num [Frontend.sampleResults, List.pairwise_cons, String.lt_iff_toList_lt] <;> decide

/-- Witness for C7 at the concrete two-day run. -/
theorem backtest_dates_strictly_increasing_witness :
    wRes2.records.Pairwise (fun a b => a.date < b.date) ∧
    Frontend.sampleResults.Pairwise (fun a b => a.date < b.date) :=
  backtest_dates_strictly_increasing (some [wBar, wBar2]) 100 wPipe wRes2 [wBar, wBar2] rfl
    (by norm_num [wBar, wBar2, List.pairwise_cons]) wRun2_eq

/-- C8: the frontend backtest output does not depend on the selected
date range — any two invocations from states with different non-empty
dates yield identical results and stats — while non-empty dates are
required (with loading clear) to enable the run button. -/
theorem frontend_backtest_ignores_dates (s t : Frontend.BacktestPageState)
    (hs1 : s.startDate ≠ "") (hs2 : s.endDate ≠ "")
    (ht1 : t.startDate ≠ "") (ht2 : t.endDate ≠ "")
    (hdiff : s.startDate ≠ t.startDate ∨ s.endDate ≠ t.endDate) :
    (Frontend.runBacktest false s).results = (Frontend.runBacktest false t).results ∧
    (Frontend.runBacktest false s).stats = (Frontend.runBacktest false t).stats ∧
    (Frontend.backtestButtonDisabled s = false ↔
      s.loading = false ∧ s.startDate ≠ "" ∧ s.endDate ≠ "") := by
  refine ⟨by simp [Frontend.runBacktest], by simp [Frontend.runBacktest], ?_⟩
  simp [Frontend.backtestButtonDisabled, Bool.or_eq_false_iff, and_assoc]

/-- Witness for C8 at two concrete states with different dates. -/
theorem frontend_backtest_ignores_dates_witness :
    (Frontend.runBacktest false wPage1).results = (Frontend.runBacktest false wPage2).results ∧
    (Frontend.runBacktest false wPage1).stats = (Frontend.runBacktest false wPage2).stats ∧
    (Frontend.backtestButtonDisabled wPage1 = false ↔
      wPage1.loading = false ∧ wPage1.startDate ≠ "" ∧ wPage1.endDate ≠ "") :=
  frontend_backtest_ignores_dates wPage1 wPage2
    (by decide) (by decide) (by decide) (by decide) (Or.inl (by decide))

/-- C9: every invocation of the four handlers leaves loading false —
whether the body completes or throws, the finally branch resets it, so
no error path leaves the interface stuck in the loading state. -/
theorem handlers_always_clear_loading :
    (∀ (b : Bool) (s : Frontend.BacktestPageState),
      (Frontend.runBacktest b s).loading = false) ∧
    (∀ (m : Option Frontend.MarketData) (a : Option (List Frontend.AgentAnalysis))
        (s : Frontend.AnalysisPageState),
      (Frontend.refreshAnalysis m a s).loading = false) ∧
    (∀ (b : Bool) (s : Frontend.ConfigPageState),
      (Frontend.testConnection b s).loading = false) ∧
    (∀ (b : Bool) (s : Frontend.ConfigPageState),
      (Frontend.saveConfig b s).loading = false) := by
  refine ⟨?_, ?_, ?_, ?_⟩
  · intro b s; cases b <;> simp [Frontend.runBacktest]
  · intro m a s; cases m <;> cases a <;> simp [Frontend.refreshAnalysis]
  · intro b s; cases b <;> simp [Frontend.testConnection]
  · intro b s; cases b <;> simp [Frontend.saveConfig]

/-- C10: testConnection and saveConfig leave the apiKeys state unchanged
and only clear loading and append one toast, and handleInputChange for
one key leaves every other key unchanged. -/
theorem config_frame_conditions (b : Bool) (s : Frontend.ConfigPageState)
    (k k2 : Frontend.ApiKeyName) (v : String) (ks : Frontend.ApiKeys)
    (hne : k2 ≠ k) :
    (Frontend.testConnection b s).apiKeys = s.apiKeys ∧
    (Frontend.saveConfig b s).apiKeys = s.apiKeys ∧
    (Frontend.testConnection b s).loading = false ∧
    (Frontend.saveConfig b s).loading = false ∧
    (∃ t, (Frontend.testConnection b s).toasts = s.toasts ++ [t]) ∧
    (∃ t, (Frontend.saveConfig b s).toasts = s.toasts ++ [t]) ∧
    Frontend.getKey k2 (Frontend.handleInputChange k v ks) = Frontend.getKey k2 ks := by
  refine ⟨?_, ?_, ?_, ?_, ?_, ?_, ?_⟩
  · cases b <;> simp [Frontend.testConnection]
  · cases b <;> simp [Frontend.saveConfig]
  · cases b <;> simp [Frontend.testConnection]
  · cases b <;> simp [Frontend.saveConfig]
  · cases b <;> exact ⟨_, rfl⟩
  · cases b <;> exact ⟨_, rfl⟩
  · cases k <;> cases k2 <;> simp_all [Frontend.handleInputChange, Frontend.getKey]

/-- Witness for C10 at concrete states and keys. -/
theorem config_frame_conditions_witness :
    (Frontend.testConnection true wConfig).apiKeys = wConfig.apiKeys ∧
    (Frontend.saveConfig true wConfig).apiKeys = wConfig.apiKeys ∧
    (Frontend.testConnection true wConfig).loading = false ∧
    (Frontend.saveConfig true wConfig).loading = false ∧
    (∃ t, (Frontend.testConnection true wConfig).toasts = wConfig.toasts ++ [t]) ∧
    (∃ t, (Frontend.saveConfig true wConfig).toasts = wConfig.toasts ++ [t]) ∧
    Frontend.getKey Frontend.ApiKeyName.openai
        (Frontend.handleInputChange Frontend.ApiKeyName.anthropic "sk-new" wKeys) =
      Frontend.getKey Frontend.ApiKeyName.openai wKeys :=
  config_frame_conditions true wConfig Frontend.ApiKeyName.anthropic
    Frontend.ApiKeyName.openai "sk-new" wKeys (by decide)
